import Mathlib

/-!
# Verification of the feed-aggregation pipeline in `scripts/build.py`

A shallow embedding of the aggregation and normalization pipeline of the
repository's `scripts/build.py`, together with theorems settling the
spec's claims about it.

Modelling conventions:
* Python strings are `List Char`.
* Timestamps (`datetime` values) are abstract `Nat` instants; only their
  ordering and equality matter to the pipeline.
* A feedparser date field (`published_parsed` / `updated_parsed`) is
  `Option (Option Nat)`: `none` means the attribute is absent or falsy,
  `some none` means it is present (truthy) but constructing a datetime
  from it raises, `some (some t)` means it converts to the instant `t`.
* Network fetches are a `world` function from a URL to either an
  exception (`Except.error`) or the parsed feed (title and entries).
-/

/-- A raw feedparser entry as consumed by `fetch_source` / `parse_date`
in `scripts/build.py`: each field models the corresponding `e.get`/
`getattr` access (absent key = `none`). -/
structure RawEntry where
  title : Option (List Char)
  link : Option (List Char)
  summary : Option (List Char)
  published_parsed : Option (Option Nat)
  updated_parsed : Option (Option Nat)
deriving DecidableEq, Repr

/-- The canonical `Item` dataclass of `scripts/build.py` (line 110). -/
structure Item where
  title : List Char
  link : List Char
  source : List Char
  summary : List Char
  published_dt : Nat
  category : List Char
deriving DecidableEq, Repr

/-- `parse_date` of `scripts/build.py` (lines 86-100).  The Python body is a
single `try` around both `if` statements: when `published_parsed` is truthy
the function returns inside the first branch, and an exception raised while
converting it jumps straight to the fallback `datetime.now` — it does NOT
fall through to `updated_parsed`.  `now` is the wall-clock instant. -/
def parse_date (e : RawEntry) (now : Nat) : Nat :=
  match e.published_parsed with
  | some (some t) => t
  | some none => now
  | none =>
    match e.updated_parsed with
    | some (some t) => t
    | some none => now
    | none => now

/-- `html.unescape`, modelled on the four XML-predefined named entities
(`amp`, `lt`, `gt`, `quot`); the full Python table extends this to the
complete HTML5 entity list in the same leftmost-scan fashion. -/
def htmlUnescape : List Char → List Char
  | '&' :: 'a' :: 'm' :: 'p' :: ';' :: rest => '&' :: htmlUnescape rest
  | '&' :: 'l' :: 't' :: ';' :: rest => '<' :: htmlUnescape rest
  | '&' :: 'g' :: 't' :: ';' :: rest => '>' :: htmlUnescape rest
  | '&' :: 'q' :: 'u' :: 'o' :: 't' :: ';' :: rest => '"' :: htmlUnescape rest
  | c :: rest => c :: htmlUnescape rest
  | [] => []

/-- Fuel-indexed worker for `re.sub(r"<[^>]+>", "", s)`: a match is a `<`,
one or more non-`>` characters, then `>`; matched spans are deleted,
everything else is copied.  `fuel ≥ length of the input` makes the fuel
branch unreachable. -/
def removeTagsAux : Nat → List Char → List Char
  | 0, s => s
  | _ + 1, [] => []
  | fuel + 1, c :: rest =>
    if c = '<' then
      match rest.dropWhile (fun x => x ≠ '>') with
      | '>' :: rest2 =>
        if (rest.takeWhile (fun x => x ≠ '>')).isEmpty then
          c :: removeTagsAux fuel rest
        else
          removeTagsAux fuel rest2
      | _ => c :: removeTagsAux fuel rest
    else
      c :: removeTagsAux fuel rest

/-- `re.sub(r"<[^>]+>", "", s)` from `clean_text` (line 107). -/
def removeTags (s : List Char) : List Char :=
  removeTagsAux s.length s

/-- Python `str.strip()`: drop leading and trailing whitespace. -/
def stripChars (s : List Char) : List Char :=
  ((s.dropWhile Char.isWhitespace).reverse.dropWhile Char.isWhitespace).reverse

/-- `clean_text` of `scripts/build.py` (lines 102-108): empty (falsy) input
short-circuits to `""`; otherwise unescape entities, then delete tags, then
strip.  Note there is no collapsing of interior whitespace runs. -/
def clean_text (s : List Char) : List Char :=
  if s.isEmpty then [] else stripChars (removeTags (htmlUnescape s))

/-- The placeholder title `"(no title)"`. -/
def noTitlePlaceholder : List Char := "(no title)".toList

/-- `fetch_source` of `scripts/build.py` (lines 119-130), with the network
already resolved into the parsed feed title (`feedTitle`, `none` when the
feed has no truthy title — `fp.feed.get("title") or url`) and the entry
list.  Every entry yields an `Item`; a missing `link` defaults to the feed
URL, the summary is `clean_text(...)[:400]`, and `category` is filled later
by the aggregator. -/
def fetch_source (url : List Char) (feedTitle : Option (List Char))
    (entries : List RawEntry) (now : Nat) : List Item :=
  let src_title := match feedTitle with
    | some t => if t.isEmpty then url else t
    | none => url
  entries.map fun e =>
    { title :=
        let t := clean_text (e.title.getD [])
        if t.isEmpty then noTitlePlaceholder else t
      link := e.link.getD url
      source := clean_text src_title
      summary := (clean_text (e.summary.getD [])).take 400
      published_dt := parse_date e now
      category := [] }

/-- Outcome of one `fetch_source(u)` call as seen by `aggregate`: either the
parsed feed (optional truthy title, entries) or an exception. -/
abbrev FetchResult := Except Unit (Option (List Char) × List RawEntry)

/-- The five fixed keys of the `pages` dict in `aggregate`
(`scripts/build.py` lines 134-140), in insertion order. -/
def pageKeys : List (List Char) :=
  ["environment".toList, "water".toList, "wastewater".toList,
   "tenders".toList, "oil_gas_petrochem".toList]

/-- `feeds.get(key, []) or []` (line 144): the configuration maps a key to
an optional URL list (`none` value models a YAML `null`); a missing or
null entry gives `[]`. -/
def lookupFeeds (feeds : List (List Char × Option (List (List Char))))
    (key : List Char) : List (List Char) :=
  match feeds.find? (fun p => p.1 == key) with
  | some (_, some us) => us
  | some (_, none) => []
  | none => []

/-- Items contributed by one URL inside `aggregate`'s inner loop
(lines 145-152): on success every fetched item is tagged with the category
key; the `try/except` turns any exception into zero items. -/
def sourceItems (world : List Char → FetchResult) (now : Nat)
    (key : List Char) (u : List Char) : List Item :=
  match world u with
  | .ok (t, es) => (fetch_source u t es now).map (fun it => { it with category := key })
  | .error _ => []

/-- The accumulation of `pages[key]` over a category's URL list
(lines 145-152), before sorting. -/
def collectItems (world : List Char → FetchResult) (now : Nat)
    (key : List Char) (urls : List (List Char)) : List Item :=
  urls.foldl (fun acc u => acc ++ sourceItems world now key u) []

/-- The descending-recency order used by
`sort(key=lambda x: x.published_dt, reverse=True)`. -/
def itemGE (a b : Item) : Prop := b.published_dt ≤ a.published_dt

instance : DecidableRel itemGE := fun _ _ => Nat.decLe _ _

instance : IsTotal Item itemGE := ⟨fun a b => Nat.le_total b.published_dt a.published_dt⟩

instance : IsTrans Item itemGE := ⟨fun _ _ _ h1 h2 => Nat.le_trans h2 h1⟩

/-- `pages[key].sort(key=lambda x: x.published_dt, reverse=True)`
(line 155): Python's stable sort, embedded as a stable insertion sort under
`itemGE`. -/
def sortDescItems (l : List Item) : List Item :=
  List.insertionSort itemGE l

/-- `aggregate` of `scripts/build.py` (lines 132-157): for each of the five
fixed keys, collect the items of its configured sources (failures skipped)
and sort descending by `published_dt`.  No deduplication and no per-category
truncation appear anywhere in the function. -/
def aggregate (feeds : List (List Char × Option (List (List Char))))
    (world : List Char → FetchResult) (now : Nat) :
    List (List Char × List Item) :=
  pageKeys.map fun key =>
    (key, sortDescItems (collectItems world now key (lookupFeeds feeds key)))

/-- The `all_items` accumulation in `render` (lines 195-197):
`for k, lst in pages.items(): all_items.extend(lst)`. -/
def joinPages (pages : List (List Char × List Item)) : List Item :=
  pages.foldl (fun acc p => acc ++ p.2) []

/-- The `items` argument handed to the index template (lines 195-205):
merge all category lists, sort descending, slice to the global cap 250. -/
def indexItems (pages : List (List Char × List Item)) : List Item :=
  (sortDescItems (joinPages pages)).take 250

/-- `all_items.extend(heap[src])` on a heap of Python list objects:
list references are indices into the heap, and `extend` mutates only the
destination cell. -/
def heapExtend (h : List (List Item)) (dst src : Nat) : List (List Item) :=
  h.set dst (h.getD dst [] ++ h.getD src [])

/-- The index-building prefix of `render` (lines 195-198) on an explicit
heap of Python list objects: `all_items = []` allocates a fresh cell `r`
past every existing list, the loop `extend`s `r` from each page's cell, and
`all_items.sort(..., reverse=True)` rewrites cell `r` in place.  Returns the
final heap and the reference `r`. -/
def buildIndexHeap (h : List (List Item)) (pageRefs : List Nat) :
    List (List Item) × Nat :=
  let r := h.length
  let h1 := h ++ [[]]
  let h2 := pageRefs.foldl (fun hh pr => heapExtend hh r pr) h1
  (h2.set r (sortDescItems (h2.getD r [])), r)

/-- The `SiteConfig` dataclass (lines 41-44) with its field defaults. -/
structure SiteConfig where
  site_name : List Char := "Environ News+".toList
  tz : List Char := "UTC".toList
deriving DecidableEq, Repr

/-- The state of `config_site.json` as `load_config` can observe it:
absent; present but raising on read or JSON-decode; valid JSON that is not
an object; or a JSON object, modelled as its key/value pairs (values
modelled as strings, the only shape the dataclass fields are meant to
hold). -/
inductive ConfigFile where
  | absent
  | unreadable
  | nonObject
  | object (kvs : List (List Char × List Char))

/-- The keyword parameters `SiteConfig.__init__` accepts. -/
def configKeys : List (List Char) := ["site_name".toList, "tz".toList]

/-- Lookup in the dict `json.loads` builds from an object: a repeated key
keeps its last occurrence. -/
def jsonGetLast (kvs : List (List Char × List Char)) (k : List Char) :
    Option (List Char) :=
  (kvs.reverse.find? (fun p => p.1 == k)).map (fun p => p.2)

/-- `load_config` of `scripts/build.py` (lines 69-79).  The whole read /
decode / construct sequence sits in one `try`: a missing file, an
unreadable file, invalid JSON, a non-object JSON value (`{**data}` raises),
or an object with a key that is not a `SiteConfig` field
(`SiteConfig(**merged)` raises `TypeError`) all fall back to the default
config; otherwise `{**asdict(SiteConfig()), **data}` overrides the defaults
field-wise. -/
def load_config (f : ConfigFile) : SiteConfig :=
  match f with
  | .object kvs =>
    if kvs.all (fun p => configKeys.contains p.1) then
      { site_name := (jsonGetLast kvs "site_name".toList).getD "Environ News+".toList
        tz := (jsonGetLast kvs "tz".toList).getD "UTC".toList }
    else {}
  | _ => {}

/-! ## Helper lemmas -/

theorem foldl_append_flatten {α β : Type} (f : α → List β) :
    ∀ (l : List α) (acc : List β),
      l.foldl (fun a x => a ++ f x) acc = acc ++ (l.map f).flatten
  | [], acc => by simp
  | x :: xs, acc => by
    simp [List.foldl_cons, foldl_append_flatten f xs (acc ++ f x), List.append_assoc]

theorem collectItems_eq_flatten (world : List Char → FetchResult) (now : Nat)
    (key : List Char) (urls : List (List Char)) :
    collectItems world now key urls = (urls.map (sourceItems world now key)).flatten := by
  simp [collectItems, foldl_append_flatten]

theorem mem_collectItems_category (world : List Char → FetchResult) (now : Nat)
    (key : List Char) (urls : List (List Char)) (it : Item)
    (h : it ∈ collectItems world now key urls) : it.category = key := by
  rw [collectItems_eq_flatten] at h
  obtain ⟨l, hl, hit⟩ := List.mem_flatten.mp h
  obtain ⟨u, _, rfl⟩ := List.mem_map.mp hl
  unfold sourceItems at hit
  cases hw : world u with
  | ok pr =>
    rw [hw] at hit
    obtain ⟨pre, _, rfl⟩ := List.mem_map.mp hit
    rfl
  | error e =>
    rw [hw] at hit
    simp at hit

theorem length_foldl_heapExtend (r : Nat) :
    ∀ (prs : List Nat) (hh : List (List Item)),
      (prs.foldl (fun h2 pr => heapExtend h2 r pr) hh).length = hh.length
  | [], hh => rfl
  | p :: ps, hh => by
    rw [List.foldl_cons, length_foldl_heapExtend r ps]
    simp [heapExtend]

theorem getD_foldl_heapExtend_ne (r i : Nat) (hne : i ≠ r) :
    ∀ (prs : List Nat) (hh : List (List Item)),
      (prs.foldl (fun h2 pr => heapExtend h2 r pr) hh).getD i [] = hh.getD i []
  | [], hh => rfl
  | p :: ps, hh => by
    rw [List.foldl_cons, getD_foldl_heapExtend_ne r i hne ps]
    simp [heapExtend, List.getD_eq_getElem?_getD, List.getElem?_set_ne (Ne.symm hne)]

theorem getD_foldl_heapExtend_self (r : Nat) :
    ∀ (prs : List Nat) (hh : List (List Item)),
      r < hh.length → (∀ p ∈ prs, p ≠ r) →
      (prs.foldl (fun h2 pr => heapExtend h2 r pr) hh).getD r [] =
        hh.getD r [] ++ (prs.map (fun p => hh.getD p [])).flatten
  | [], hh, _, _ => by simp
  | p :: ps, hh, hr, hne => by
    rw [List.foldl_cons,
      getD_foldl_heapExtend_self r ps (heapExtend hh r p)
        (by simp [heapExtend, hr])
        (fun q hq => hne q (List.mem_cons_of_mem _ hq))]
    have h1 : (heapExtend hh r p).getD r [] = hh.getD r [] ++ hh.getD p [] := by
      simp [heapExtend, List.getD_eq_getElem?_getD, List.getElem?_set_self hr]
    have h2 : ps.map (fun q => (heapExtend hh r p).getD q []) =
        ps.map (fun q => hh.getD q []) := by
      apply List.map_congr_left
      intro q hq
      have hqr : r ≠ q := fun he => hne q (List.mem_cons_of_mem _ hq) he.symm
      simp [heapExtend, List.getD_eq_getElem?_getD, List.getElem?_set_ne hqr]
    rw [h1, h2, List.map_cons, List.flatten_cons, List.append_assoc]

/-! ## Concrete fixtures used by witnesses and counterexamples -/

/-- The shared story link of the spec's deduplication scenario. -/
def xLink : List Char := "https://example.org/x".toList

def urlA : List Char := ['a']

def urlB : List Char := ['b']

/-- A feeds configuration with two sources in the `water` category. -/
def exFeeds : List (List Char × Option (List (List Char))) :=
  [("water".toList, some [urlA, urlB])]

/-- A world in which both `water` sources publish the same story link,
one timestamped 10 and one timestamped 12; every other URL errors. -/
def exWorld : List Char → FetchResult := fun u =>
  if u = urlA then .ok (none, [⟨none, some xLink, none, some (some 10), none⟩])
  else if u = urlB then .ok (none, [⟨none, some xLink, none, some (some 12), none⟩])
  else .error ()

/-- Twelve distinct entries with timestamps 0..11. -/
def twelveEntries : List RawEntry :=
  (List.range 12).map fun i =>
    ⟨none, some [Char.ofNat (65 + i)], none, some (some i), none⟩

/-- A feeds configuration whose single `water` source yields 12 items. -/
def exFeeds12 : List (List Char × Option (List (List Char))) :=
  [("water".toList, some [['c']])]

def exWorld12 : List Char → FetchResult := fun u =>
  if u = ['c'] then .ok (none, twelveEntries) else .error ()

/-! ## Claim theorems -/

/-- C5 counterexample: an entry whose `published_parsed` is present but
malformed and whose `updated_parsed` parses to the instant 5 gets the
run time 99, not the updated time 5 — the code does not fall through to
the next candidate when the first present field fails to parse. -/
theorem C5_counterexample :
    parse_date ⟨none, none, none, some none, some (some 5)⟩ 99 = 99 ∧
    (99 : Nat) ≠ 5 := by
  decide

/-- C5 (amended): `parse_date` is total (never raises) and resolves, for
every entry and run time `now`: a parseable `published_parsed` wins; a
present-but-malformed `published_parsed` yields `now` (skipping
`updated_parsed` entirely); with `published_parsed` absent, a parseable
`updated_parsed` wins, a malformed one yields `now`, and with both fields
absent the result is `now`. -/
theorem C5_parse_date (e : RawEntry) (now : Nat) :
    (∀ t, e.published_parsed = some (some t) → parse_date e now = t) ∧
    (e.published_parsed = some none → parse_date e now = now) ∧
    (∀ t, e.published_parsed = none → e.updated_parsed = some (some t) →
      parse_date e now = t) ∧
    (e.published_parsed = none → e.updated_parsed = some none →
      parse_date e now = now) ∧
    (e.published_parsed = none → e.updated_parsed = none →
      parse_date e now = now) := by
  refine ⟨?_, ?_, ?_, ?_, ?_⟩ <;> intros <;> simp [parse_date, *]

/-- C5 witness: a concrete entry with `published_parsed` parsing to 4. -/
theorem C5_parse_date_witness :
    parse_date ⟨none, none, none, some (some 4), none⟩ 9 = 4 :=
  (C5_parse_date ⟨none, none, none, some (some 4), none⟩ 9).1 4 rfl

/-- C3 counterexample: an entry with no `link` field is NOT excluded —
`fetch_source` still yields an `Item` for it, with the feed URL as its
link. -/
theorem C3_counterexample :
    (fetch_source "https://feeds.example.org/rss".toList none
        [⟨some ['t'], none, none, some (some 3), none⟩] 7).map Item.link =
      ["https://feeds.example.org/rss".toList] := by
  decide

/-- C3 (amended): every raw entry produces exactly one `Item`; an entry
lacking a link is not dropped, its `link` field defaulting to the feed
URL instead. -/
theorem C3_link_default (url : List Char) (ft : Option (List Char))
    (es : List RawEntry) (now : Nat) :
    (fetch_source url ft es now).map Item.link =
      es.map (fun e => e.link.getD url) := by
  simp [fetch_source, List.map_map]

/-- C7 counterexample: a summary containing the run of two spaces
`"a  b"` is passed through with the run intact — `clean_text` never
collapses interior whitespace to single spaces. -/
theorem C7_counterexample :
    (fetch_source ['u'] none
        [⟨none, none, some "a  b".toList, some (some 3), none⟩] 7).map
      Item.summary = ["a  b".toList] ∧
    "a  b".toList ≠ "a b".toList := by
  decide

/-- C7 (amended): every produced `Item`'s summary is the cleaned source
summary (entities decoded before tag removal, then leading/trailing —
but not interior — whitespace stripped) truncated to the fixed cap 400,
so its length never exceeds 400. -/
theorem C7_summary_cap (url : List Char) (ft : Option (List Char))
    (es : List RawEntry) (now : Nat) (it : Item)
    (h : it ∈ fetch_source url ft es now) : it.summary.length ≤ 400 := by
  unfold fetch_source at h
  obtain ⟨e, _, rfl⟩ := List.mem_map.mp h
  exact List.length_take_le _ _

/-- C7 witness: a concrete fetched item. -/
theorem C7_summary_cap_witness :
    (Item.mk noTitlePlaceholder ['u'] ['u'] "abc".toList 3 []).summary.length ≤ 400 :=
  C7_summary_cap ['u'] none [⟨none, none, some "abc".toList, some (some 3), none⟩] 7
    (Item.mk noTitlePlaceholder ['u'] ['u'] "abc".toList 3 []) (by decide)

/-- C1 counterexample: two sources of the `water` category both publish
the story `https://example.org/x` (timestamps 10 and 12); the category's
final list — and hence the merged output — contains TWO items with that
link, not one: `aggregate` performs no deduplication. -/
theorem C1_counterexample :
    ((aggregate exFeeds exWorld 0).map
        (fun p => p.2.countP (fun it => it.link == xLink))) =
      [0, 2, 0, 0, 0] := by
  decide

/-- C1 (amended): no deduplication is performed anywhere in `aggregate`:
each category's final list is a permutation (a descending re-ordering) of
ALL items collected from its sources, so items sharing the same link are
all retained. -/
theorem C1_no_dedup (feeds : List (List Char × Option (List (List Char))))
    (world : List Char → FetchResult) (now : Nat)
    (p : List Char × List Item) (h : p ∈ aggregate feeds world now) :
    p.2.Perm (collectItems world now p.1 (lookupFeeds feeds p.1)) := by
  unfold aggregate at h
  obtain ⟨key, _, rfl⟩ := List.mem_map.mp h
  exact List.perm_insertionSort itemGE _

/-- C1 witness: the `water` entry of the two-duplicate fixture. -/
theorem C1_no_dedup_witness :
    (("water".toList,
        sortDescItems (collectItems exWorld 0 "water".toList
          (lookupFeeds exFeeds "water".toList))) : List Char × List Item).2.Perm
      (collectItems exWorld 0 "water".toList (lookupFeeds exFeeds "water".toList)) :=
  C1_no_dedup exFeeds exWorld 0 _ (by decide)

/-- C2 counterexample: a category receiving 12 items outputs all 12 of
them — no per-category cap of 5 (or of any other size) is applied. -/
theorem C2_counterexample :
    ((aggregate exFeeds12 exWorld12 0).map (fun p => p.2.length)) =
      [0, 12, 0, 0, 0] ∧ (12 : Nat) ≠ 5 := by
  decide

/-- C2 (amended): per-category lists are not capped (see the
counterexample and the permutation theorem for C1); the only cap is the
global one on the merged index list, which keeps exactly
`min 250 (total number of items)` entries, preserving the relative order
of the kept items (it is a prefix — hence a sublist — of the descending
merge). -/
theorem C2_global_bound (pages : List (List Char × List Item)) :
    (indexItems pages).length = min 250 (joinPages pages).length ∧
    (indexItems pages).Sublist (sortDescItems (joinPages pages)) := by
  constructor
  · rw [indexItems, List.length_take]
    congr 1
    exact (List.perm_insertionSort itemGE _).length_eq
  · exact List.take_sublist _ _

/-- C4: every category list produced by `aggregate`, and the merged index
list, is sorted by `published_dt` descending (`itemGE` relates each
element to every later one, i.e. timestamps are non-increasing). -/
theorem C4_sorted (feeds : List (List Char × Option (List (List Char))))
    (world : List Char → FetchResult) (now : Nat)
    (pages : List (List Char × List Item)) :
    (∀ p ∈ aggregate feeds world now, List.Sorted itemGE p.2) ∧
    List.Sorted itemGE (indexItems pages) := by
  constructor
  · intro p hp
    unfold aggregate at hp
    obtain ⟨key, _, rfl⟩ := List.mem_map.mp hp
    exact List.sorted_insertionSort itemGE _
  · exact List.Pairwise.sublist (List.take_sublist _ _)
      (List.sorted_insertionSort itemGE _)

/-- C4 witness: the `water` list of the two-duplicate fixture is sorted. -/
theorem C4_sorted_witness :
    List.Sorted itemGE
      (("water".toList,
        sortDescItems (collectItems exWorld 0 "water".toList
          (lookupFeeds exFeeds "water".toList))) : List Char × List Item).2 :=
  (C4_sorted exFeeds exWorld 0 []).1 _ (by decide)

/-- C6: a source whose fetch raises contributes zero items and leaves the
rest of the category untouched — the accumulated category items with the
failing source present are exactly those with it absent, and no error
escapes (`collectItems`, like `aggregate`, is total). -/
theorem C6_fault_isolation (world : List Char → FetchResult) (now : Nat)
    (key u : List Char) (urls1 urls2 : List (List Char))
    (h : world u = .error ()) :
    collectItems world now key (urls1 ++ u :: urls2) =
      collectItems world now key (urls1 ++ urls2) := by
  rw [collectItems_eq_flatten, collectItems_eq_flatten]
  have hu : sourceItems world now key u = [] := by
    unfold sourceItems
    rw [h]
  simp [hu]

/-- C6 witness: dropping an erroring URL from the two-source fixture. -/
theorem C6_fault_isolation_witness :
    collectItems exWorld 0 "water".toList ([urlA] ++ ['z'] :: [urlB]) =
      collectItems exWorld 0 "water".toList ([urlA] ++ [urlB]) :=
  C6_fault_isolation exWorld 0 "water".toList ['z'] [urlA] [urlB] rfl

/-- A fixed concrete item for heap-model witnesses. -/
def exItem : Item := ⟨['t'], ['l'], ['s'], [], 3, []⟩

/-- The item the `water` fixture's second source produces. -/
def exItem12 : Item := ⟨noTitlePlaceholder, xLink, ['b'], [], 12, "water".toList⟩

/-- C8: building the merged index list mutates only the freshly allocated
`all_items` cell of the heap: every pre-existing cell — in particular
every per-category list — is element-for-element unchanged, while the
fresh cell ends up holding the descending sort of the concatenation of
the page lists. -/
theorem C8_no_mutation (h : List (List Item)) (pageRefs : List Nat)
    (hp : ∀ p ∈ pageRefs, p < h.length) :
    (∀ i, i < h.length →
      (buildIndexHeap h pageRefs).1.getD i [] = h.getD i []) ∧
    (buildIndexHeap h pageRefs).1.getD (buildIndexHeap h pageRefs).2 [] =
      sortDescItems ((pageRefs.map (fun p => h.getD p [])).flatten) := by
  have hfoldlen :
      (pageRefs.foldl (fun hh pr => heapExtend hh h.length pr)
        (h ++ ([[]] : List (List Item)))).length = h.length + 1 := by
    rw [length_foldl_heapExtend]
    simp
  constructor
  · intro i hilt
    have hir : i ≠ h.length := Nat.ne_of_lt hilt
    simp only [buildIndexHeap]
    rw [List.getD_eq_getElem?_getD, List.getElem?_set_ne (Ne.symm hir),
      ← List.getD_eq_getElem?_getD,
      getD_foldl_heapExtend_ne h.length i hir pageRefs,
      List.getD_eq_getElem?_getD, List.getElem?_append_left hilt,
      ← List.getD_eq_getElem?_getD]
  · simp only [buildIndexHeap]
    rw [List.getD_eq_getElem?_getD,
      List.getElem?_set_self (by rw [hfoldlen]; omega), Option.getD_some]
    congr 1
    rw [getD_foldl_heapExtend_self h.length pageRefs
      (h ++ ([[]] : List (List Item))) (by simp)
      (fun p hp2 => Nat.ne_of_lt (hp p hp2))]
    have hzero : (h ++ ([[]] : List (List Item))).getD h.length [] = [] := by
      rw [List.getD_eq_getElem?_getD,
        List.getElem?_append_right (Nat.le_refl _)]
      simp
    rw [hzero, List.nil_append]
    congr 1
    apply List.map_congr_left
    intro p hp2
    rw [List.getD_eq_getElem?_getD, List.getElem?_append_left (hp p hp2),
      ← List.getD_eq_getElem?_getD]

/-- C8 witness: a one-cell heap whose only list survives the merge. -/
theorem C8_no_mutation_witness :
    (buildIndexHeap [[exItem]] [0]).1.getD 0 [] = [[exItem]].getD 0 [] :=
  (C8_no_mutation [[exItem]] [0] (by decide)).1 0 (by decide)

/-- C9 counterexample: `config_site.json` holding the valid JSON object
with keys `site_name` and `foo` does NOT override `site_name` field-wise:
the unexpected keyword makes `SiteConfig(**merged)` raise, the blanket
`except` swallows it, and the default name is returned instead of `X`. -/
theorem C9_counterexample :
    (load_config (.object
        [("site_name".toList, ['X']), (['f', 'o', 'o'], ['y'])])).site_name =
      "Environ News+".toList ∧
    "Environ News+".toList ≠ ['X'] := by
  decide

/-- C9 (amended): `load_config` is total (never raises); an absent,
unreadable or non-object configuration yields the default `SiteConfig`;
a valid JSON object all of whose keys are `SiteConfig` fields overrides
the defaults field-wise; a valid JSON object with any unknown key yields
the default as well. -/
theorem C9_load_config :
    (load_config .absent = {}) ∧
    (load_config .unreadable = {}) ∧
    (load_config .nonObject = {}) ∧
    (∀ kvs, kvs.all (fun p => configKeys.contains p.1) = true →
      (∀ v, jsonGetLast kvs "site_name".toList = some v →
        (load_config (.object kvs)).site_name = v) ∧
      (jsonGetLast kvs "site_name".toList = none →
        (load_config (.object kvs)).site_name = "Environ News+".toList) ∧
      (∀ v, jsonGetLast kvs "tz".toList = some v →
        (load_config (.object kvs)).tz = v) ∧
      (jsonGetLast kvs "tz".toList = none →
        (load_config (.object kvs)).tz = "UTC".toList)) ∧
    (∀ kvs, kvs.all (fun p => configKeys.contains p.1) = false →
      load_config (.object kvs) = {}) := by
  have hobj : ∀ kvs, kvs.all (fun p => configKeys.contains p.1) = true →
      load_config (.object kvs) =
        { site_name := (jsonGetLast kvs "site_name".toList).getD "Environ News+".toList
          tz := (jsonGetLast kvs "tz".toList).getD "UTC".toList } := by
    intro kvs hall
    exact if_pos hall
  refine ⟨rfl, rfl, rfl, ?_, ?_⟩
  · intro kvs hall
    refine ⟨?_, ?_, ?_, ?_⟩
    · intro v hv
      rw [hobj kvs hall, hv]
      rfl
    · intro hv
      rw [hobj kvs hall, hv]
      rfl
    · intro v hv
      rw [hobj kvs hall, hv]
      rfl
    · intro hv
      rw [hobj kvs hall, hv]
      rfl
  · intro kvs hall
    exact if_neg (fun hc => by rw [hc] at hall; exact Bool.noConfusion hall)

/-- C9 witness: a well-formed object overriding `site_name`. -/
theorem C9_load_config_witness :
    (load_config (.object [("site_name".toList, ['X'])])).site_name = ['X'] :=
  (C9_load_config.2.2.2.1 [("site_name".toList, ['X'])] (by decide)).1
    ['X'] (by decide)

/-- C10: `aggregate` always returns exactly the five fixed keys in order;
every item in a key's list carries that key as its `category`; a key
absent from the configuration maps to the empty list; and a
configuration entry whose key is outside the five is ignored entirely. -/
theorem C10_fixed_keys (feeds : List (List Char × Option (List (List Char))))
    (world : List Char → FetchResult) (now : Nat) :
    ((aggregate feeds world now).map Prod.fst = pageKeys) ∧
    (∀ p ∈ aggregate feeds world now, ∀ it ∈ p.2, it.category = p.1) ∧
    (∀ key, key ∈ pageKeys → feeds.find? (fun q => q.1 == key) = none →
      (key, ([] : List Item)) ∈ aggregate feeds world now) ∧
    (∀ k v, k ∉ pageKeys →
      aggregate ((k, v) :: feeds) world now = aggregate feeds world now) := by
  refine ⟨?_, ?_, ?_, ?_⟩
  · unfold aggregate
    rw [List.map_map]
    rfl
  · intro p hp it hit
    unfold aggregate at hp
    obtain ⟨key, _, rfl⟩ := List.mem_map.mp hp
    have hmem : it ∈ collectItems world now key (lookupFeeds feeds key) :=
      (List.perm_insertionSort itemGE _).mem_iff.mp hit
    exact mem_collectItems_category _ _ _ _ _ hmem
  · intro key hkey hfind
    have hl : lookupFeeds feeds key = [] := by simp [lookupFeeds, hfind]
    unfold aggregate
    refine List.mem_map.mpr ⟨key, hkey, ?_⟩
    rw [hl]
    rfl
  · intro k v hk
    unfold aggregate
    apply List.map_congr_left
    intro key hkey
    have hne : ¬((k, v).1 == key) = true := by
      simp only [beq_iff_eq]
      intro he
      exact hk (he ▸ hkey)
    have hfind : List.find? (fun q => q.1 == key) ((k, v) :: feeds) =
        List.find? (fun q => q.1 == key) feeds :=
      List.find?_cons_of_neg _ hne
    have hlk : lookupFeeds ((k, v) :: feeds) key = lookupFeeds feeds key := by
      unfold lookupFeeds
      rw [hfind]
    rw [hlk]

/-- C10 witness: the empty configuration maps `water` to `[]`, and the
duplicate-link fixture's item carries the `water` category. -/
theorem C10_fixed_keys_witness :
    (("water".toList, ([] : List Item)) ∈ aggregate [] exWorld 0) ∧
    exItem12.category = "water".toList :=
  ⟨(C10_fixed_keys [] exWorld 0).2.2.1 "water".toList (by decide) rfl,
   (C10_fixed_keys exFeeds exWorld 0).2.1
     ("water".toList,
       sortDescItems (collectItems exWorld 0 "water".toList
         (lookupFeeds exFeeds "water".toList))) (by decide) exItem12 (by decide)⟩
